import Mathlib

/-! Request-body validation: schema cache and dispatcher.

A shallow embedding of `requests/request_body.go` and `requests/validate_body.go`.

* Go pointers and maps that may be nil are `Option`s; a Go map is an association
  list (one iteration order), looked up by its first matching key.
* A Go slice of validation errors is `Option (List E)`: `none` is the nil slice,
  `some []` an empty non-nil slice.  The source tests `errs != nil`, so the two
  are kept apart.
* The external collaborators (path resolution, operation selection, media-type
  parsing, fingerprinting, rendering, conversion, the schema validation engine,
  the error constructor) are the fields of `Collaborators`.
* Calls made to the collaborators are recorded in the value a function returns,
  so that "is called" and "is not called" are statements about that value.
* The reader/writer mutex is not modelled.
-/

namespace Requests

/-- Go byte slice; the nil slice and the empty slice are both the empty list. -/
abbrev Bytes := List Nat

/-! ## Contract document model (the fields the source reads) -/

/-- Media type entry `v3.MediaType`: the schema proxy pointer may be nil. -/
structure MediaType (P : Type) where
  Schema : Option P
deriving DecidableEq

/-- Request body `v3.RequestBody`: `Content` is a Go map, `none` is the nil map. -/
structure RequestBody (P : Type) where
  Content : Option (List (String × MediaType P))
deriving DecidableEq

/-- Operation `v3.Operation`: the request body pointer may be nil. -/
structure Operation (P : Type) where
  OperationId : String
  RequestBody : Option (RequestBody P)
deriving DecidableEq

/-- Path item `v3.PathItem`: one operation pointer per HTTP method. -/
structure PathItem (P : Type) where
  Get : Option (Operation P)
  Put : Option (Operation P)
  Post : Option (Operation P)
  Delete : Option (Operation P)
  Options : Option (Operation P)
  Head : Option (Operation P)
  Patch : Option (Operation P)
  Trace : Option (Operation P)
deriving DecidableEq

/-- Paths object `v3.Paths`: the map from path template to path item. -/
structure Paths (P : Type) where
  PathItems : List (String × PathItem P)
deriving DecidableEq

/-- Document `v3.Document`: the paths pointer may be nil. -/
structure Document (P : Type) where
  Paths : Option (Paths P)
deriving DecidableEq

/-- Go map read `m[k]` with the comma-ok form; a nil map has no entry. -/
def mapGet {V : Type} (m : Option (List (String × V))) (k : String) : Option V :=
  match m with
  | none => none
  | some entries => entries.lookup k

/-- Go `range` over a map; ranging over the nil map runs zero iterations. -/
def mapRange {V : Type} (m : Option (List (String × V))) : List (String × V) :=
  match m with
  | none => []
  | some entries => entries

/-! ## HTTP request -/

/-- The parts of `http.Request` the dispatcher and its collaborators can read. -/
structure Request where
  Method : String
  URL : String
  Header : List (String × String)
  Body : Bytes
deriving DecidableEq

/-- Header read `request.Header.Get(key)`: the first value, or the empty string. -/
def Request.HeaderGet (r : Request) (key : String) : String :=
  match r.Header.lookup key with
  | some value => value
  | none => ""

/-- Modelled from the spec: the constant `helpers.ContentTypeHeader`, the name of
the content-type header. -/
def ContentTypeHeader : String := "Content-Type"

/-- Modelled from the spec: the constant `helpers.JSONType`, the substring `json`. -/
def JSONType : String := "json"

/-- Whether `sub` occurs as a contiguous run inside the character list. -/
def occursIn (sub : List Char) : List Char → Bool
  | [] => sub.isEmpty
  | x :: xs => sub.isPrefixOf (x :: xs) || occursIn sub xs

/-- Go `strings.ToLower`, on the characters of the string. -/
def strings.ToLower (s : String) : String := ⟨s.data.map Char.toLower⟩

/-- Go `strings.Contains`. -/
def strings.Contains (s substr : String) : Bool := occursIn substr.data s.data

/-! ## Validator state -/

/-- Cache entry `schemaCache`: schema handle, inline rendering, JSON rendering. -/
structure schemaCache (Sch : Type) where
  schema : Sch
  renderedInline : Bytes
  renderedJSON : Bytes
deriving DecidableEq

/-- Validator state `requestBodyValidator`; `schemaCache` is the Go map from
fingerprint to entry, `pathItem` and `pathValue` the pinned override. -/
structure requestBodyValidator (P Sch H E : Type) where
  document : Document P
  pathItem : Option (PathItem P)
  pathValue : String
  errors : Option (List E)
  schemaCache : H → Option (schemaCache Sch)

/-- Go map write `m[k] = e`. -/
def cacheInsert {Sch H : Type} [DecidableEq H] (m : H → Option (schemaCache Sch)) (k : H)
    (e : schemaCache Sch) : H → Option (schemaCache Sch) :=
  fun k2 => if k2 = k then some e else m k2

/-- The external collaborators of the core. -/
structure Collaborators (P Sch H E : Type) where
  /-- Path resolution `paths.FindPath`: path item, errors, matched path value. -/
  FindPath : Request → Document P → Option (PathItem P) × Option (List E) × String
  /-- Operation selection `helpers.ExtractOperation`; the result may be nil. -/
  ExtractOperation : Request → PathItem P → Option (Operation P)
  /-- Media type parsing `helpers.ExtractContentType`: media type, charset, boundary. -/
  ExtractContentType : String → String × String × String
  /-- Fingerprint `GoLow().Schema.Value.Hash()` of a media type entry's schema. -/
  Hash : P → H
  /-- Schema build `SchemaProxy.Schema()`. -/
  Schema : P → Sch
  /-- Inline renderer `Schema.RenderInline()`. -/
  RenderInline : Sch → Except String Bytes
  /-- Converter `utils.ConvertYAMLtoJSON`. -/
  ConvertYAMLtoJSON : Bytes → Except String Bytes
  /-- Schema validation engine `ValidateRequestSchema`; the schema may be nil. -/
  ValidateRequestSchema : Request → Option Sch → Bytes → Bytes → Bool × List E
  /-- Error constructor `errors.RequestContentTypeNotFound`. -/
  RequestContentTypeNotFound : Operation P → Request → E

/-! ## Operation extraction -/

/-- One `if` of `extractOperations`: append the operation when it is defined, has a
request body, and that body's content map is not nil. -/
def appendIfContent {P : Type} (operations : List (Operation P)) (op : Option (Operation P)) :
    List (Operation P) :=
  match op with
  | some o =>
    match o.RequestBody with
    | some rb =>
      match rb.Content with
      | some _ => operations ++ [o]
      | none => operations
    | none => operations
  | none => operations

/-- Source `extractOperations`: the eight checks, in source order. -/
def extractOperations {P : Type} (pathItem : PathItem P) : List (Operation P) :=
  let operations : List (Operation P) := []
  let operations := appendIfContent operations pathItem.Get
  let operations := appendIfContent operations pathItem.Put
  let operations := appendIfContent operations pathItem.Post
  let operations := appendIfContent operations pathItem.Delete
  let operations := appendIfContent operations pathItem.Options
  let operations := appendIfContent operations pathItem.Head
  let operations := appendIfContent operations pathItem.Patch
  let operations := appendIfContent operations pathItem.Trace
  operations

/-! ## Cache construction -/

/-- What a run of `buildCache` leaves behind: the cache, and the fingerprints for
which the inline renderer and the converter were invoked, in call order. -/
structure BuildState (Sch H : Type) where
  cache : H → Option (schemaCache Sch)
  renderCalls : List H
  convertCalls : List H

/-- Innermost loop of `buildCache`: the media type entries of one request body.
The second component is the returned Go error (`none` is nil); an error stops
the whole construction. -/
def cacheContent {P Sch H E : Type} [DecidableEq H] (c : Collaborators P Sch H E) :
    List (String × MediaType P) → BuildState Sch H → BuildState Sch H × Option String
  | [], st => (st, none)
  | (_, body) :: rest, st =>
    match body.Schema with
    | some p =>
      let hash := c.Hash p
      let schema := c.Schema p
      let st1 : BuildState Sch H :=
        ⟨st.cache, st.renderCalls ++ [hash], st.convertCalls⟩
      match c.RenderInline schema with
      | .error err => (st1, some ("failed to render inline schema: " ++ err))
      | .ok renderedInline =>
        let st2 : BuildState Sch H :=
          ⟨st1.cache, st1.renderCalls, st1.convertCalls ++ [hash]⟩
        match c.ConvertYAMLtoJSON renderedInline with
        | .error err =>
          (st2, some ("failed to convert rendered inline schema to JSON: " ++ err))
        | .ok renderedJSON =>
          cacheContent c rest
            ⟨cacheInsert st2.cache hash ⟨schema, renderedInline, renderedJSON⟩,
              st2.renderCalls, st2.convertCalls⟩
    | none => cacheContent c rest st

/-- The content map `operation.RequestBody.Content` that `buildCache` ranges over.
The `none` branch is a nil dereference in the source; `extractOperations` never
returns such an operation. -/
def contentOf {P : Type} (operation : Operation P) : List (String × MediaType P) :=
  match operation.RequestBody with
  | some rb => mapRange rb.Content
  | none => []

/-- Middle loop of `buildCache`: the operations extracted from one path item. -/
def cacheOperations {P Sch H E : Type} [DecidableEq H] (c : Collaborators P Sch H E) :
    List (Operation P) → BuildState Sch H → BuildState Sch H × Option String
  | [], st => (st, none)
  | operation :: rest, st =>
    match cacheContent c (contentOf operation) st with
    | (st1, some err) => (st1, some err)
    | (st1, none) => cacheOperations c rest st1

/-- Outer loop of `buildCache`: the path items of the document. -/
def cachePathItems {P Sch H E : Type} [DecidableEq H] (c : Collaborators P Sch H E) :
    List (String × PathItem P) → BuildState Sch H → BuildState Sch H × Option String
  | [], st => (st, none)
  | (_, pathItem) :: rest, st =>
    match cacheOperations c (extractOperations pathItem) st with
    | (st1, some err) => (st1, some err)
    | (st1, none) => cachePathItems c rest st1

/-- Source `buildCache`, with the calls it made to the renderer and the converter.
The cache is written in place, so what was stored before an error stays. -/
def buildCacheRun {P Sch H E : Type} [DecidableEq H] (c : Collaborators P Sch H E)
    (v : requestBodyValidator P Sch H E) : BuildState Sch H × Option String :=
  match v.document.Paths with
  | none => (⟨v.schemaCache, [], []⟩, none)
  | some paths => cachePathItems c paths.PathItems ⟨v.schemaCache, [], []⟩

/-- Source `buildCache`: the validator after the call, and the returned error. -/
def buildCache {P Sch H E : Type} [DecidableEq H] (c : Collaborators P Sch H E)
    (v : requestBodyValidator P Sch H E) : requestBodyValidator P Sch H E × Option String :=
  let run := buildCacheRun c v
  (⟨v.document, v.pathItem, v.pathValue, v.errors, run.1.cache⟩, run.2)

/-- Source `NewRequestBodyValidator`: the error of `buildCache` is assigned to the
blank identifier and the validator is returned. -/
def NewRequestBodyValidator {P Sch H E : Type} [DecidableEq H] (c : Collaborators P Sch H E)
    (document : Document P) : requestBodyValidator P Sch H E :=
  let validator : requestBodyValidator P Sch H E := ⟨document, none, "", none, fun _ => none⟩
  (buildCache c validator).1

/-- Source `SetPathItem`. -/
def SetPathItem {P Sch H E : Type} (v : requestBodyValidator P Sch H E)
    (path : Option (PathItem P)) (pathValue : String) : requestBodyValidator P Sch H E :=
  ⟨v.document, path, pathValue, v.errors, v.schemaCache⟩

/-! ## Request body dispatcher -/

/-- How a call of `ValidateRequestBody` ends: it returns its pair, or it panics on a
nil operation. -/
inductive Outcome (E : Type) where
  | returned (valid : Bool) (errs : Option (List E))
  | panicked
deriving DecidableEq

/-- One call of `ValidateRequestBody`: how it ended, how many times path resolution
was consulted, and the arguments of each call to the schema validation engine. -/
structure Run (Sch E : Type) where
  outcome : Outcome E
  findPathCalls : Nat
  engineCalls : List (Request × Option Sch × Bytes × Bytes)
deriving DecidableEq

/-- The last four lines of `ValidateRequestBody`. -/
def finish {Sch E : Type} (validationErrors : List E)
    (engineCalls : List (Request × Option Sch × Bytes × Bytes)) : Run Sch E :=
  if validationErrors.length > 0 then
    ⟨.returned false (some validationErrors), 1, engineCalls⟩
  else
    ⟨.returned true none, 1, engineCalls⟩

/-- Cache read of `ValidateRequestBody`: on a miss the three variables keep their
zero values (nil schema, nil renderings). -/
def cacheRead {Sch H : Type} (cache : H → Option (schemaCache Sch)) (hash : H) :
    Option Sch × Bytes × Bytes :=
  match cache hash with
  | some cacheHit => (some cacheHit.schema, cacheHit.renderedInline, cacheHit.renderedJSON)
  | none => (none, [], [])

/-- Source `ValidateRequestBody`. -/
def ValidateRequestBody {P Sch H E : Type} (c : Collaborators P Sch H E)
    (v : requestBodyValidator P Sch H E) (request : Request) : Run Sch E :=
  match c.FindPath request v.document with
  | (some pathItem, none, _) =>
    let operation := c.ExtractOperation request pathItem
    let contentType := request.HeaderGet ContentTypeHeader
    if contentType ≠ "" then
      let ct := (c.ExtractContentType contentType).1
      match operation with
      | none => ⟨.panicked, 1, []⟩
      | some operation =>
        match operation.RequestBody with
        | some rb =>
          match mapGet rb.Content ct with
          | some mediaType =>
            if strings.Contains (strings.ToLower contentType) JSONType then
              match mediaType.Schema with
              | some p =>
                let hash := c.Hash p
                let hit := cacheRead v.schemaCache hash
                let res := c.ValidateRequestSchema request hit.1 hit.2.1 hit.2.2
                let validationErrors := if !res.1 then res.2 else []
                finish validationErrors [(request, hit.1, hit.2.1, hit.2.2)]
              | none => finish [] []
            else finish [] []
          | none => finish [c.RequestContentTypeNotFound operation request] []
        | none => finish [] []
    else finish [] []
  | (_, errs, _) => ⟨.returned false errs, 1, []⟩

/-- Go `len` of an error slice. -/
def sliceLen {E : Type} (errs : Option (List E)) : Nat :=
  match errs with
  | none => 0
  | some l => l.length

/-! ## A concrete instance of the collaborators

Schema proxies, schemas and fingerprints are natural numbers (a schema is its own
fingerprint), validation errors are their messages. -/

namespace Demo

/-- Path resolution by exact match of the request URL against the path templates. -/
def FindPath (request : Request) (document : Document Nat) :
    Option (PathItem Nat) × Option (List String) × String :=
  match document.Paths with
  | none => (none, some ["Path not found"], "")
  | some paths =>
    match paths.PathItems.lookup request.URL with
    | some pathItem => (some pathItem, none, request.URL)
    | none => (none, some ["Path not found"], "")

/-- Modelled from the spec: `helpers.ExtractOperation`, which determines the
operation from the path item using the HTTP method of the request. -/
def ExtractOperation (request : Request) (item : PathItem Nat) : Option (Operation Nat) :=
  if request.Method = "GET" then item.Get
  else if request.Method = "PUT" then item.Put
  else if request.Method = "POST" then item.Post
  else if request.Method = "DELETE" then item.Delete
  else if request.Method = "OPTIONS" then item.Options
  else if request.Method = "HEAD" then item.Head
  else if request.Method = "PATCH" then item.Patch
  else if request.Method = "TRACE" then item.Trace
  else none

/-- Drop the blanks at both ends of a character list. -/
def trimBlanks (l : List Char) : List Char :=
  ((l.dropWhile (fun ch => ch == ' ')).reverse.dropWhile (fun ch => ch == ' ')).reverse

/-- Modelled from the spec: `helpers.ExtractContentType`, which strips the
parameters (charset, boundary) from a content-type header value: the media type
is what stands before the first semicolon, trimmed.  The two parameters are not
read by the dispatcher and are returned empty. -/
def ExtractContentType (contentType : String) : String × String × String :=
  (⟨trimBlanks (contentType.data.takeWhile (fun ch => ch != ';'))⟩, "", "")

/-- The inline renderer: schema 13 holds a reference that cannot be resolved. -/
def RenderInline (schema : Nat) : Except String Bytes :=
  if schema = 13 then .error "unresolvable reference" else .ok [schema]

/-- The converter: always succeeds. -/
def ConvertYAMLtoJSON (rendered : Bytes) : Except String Bytes := .ok (0 :: rendered)

/-- The engine: with a schema, an empty body lacks the required property; with no
schema there is nothing to violate. -/
def ValidateRequestSchema (request : Request) (schema : Option Nat) (_ri _rj : Bytes) :
    Bool × List String :=
  match schema with
  | none => (true, [])
  | some _ => if request.Body = [] then (false, ["missing required property id"]) else (true, [])

/-- The content-type error, naming the operation and the header value. -/
def RequestContentTypeNotFound (operation : Operation Nat) (request : Request) : String :=
  "content type not found: " ++ operation.OperationId ++ " " ++
    request.HeaderGet ContentTypeHeader

/-- The collaborators of the concrete instance. -/
def collab : Collaborators Nat Nat Nat String :=
  ⟨FindPath, ExtractOperation, ExtractContentType, id, id, RenderInline, ConvertYAMLtoJSON,
    ValidateRequestSchema, RequestContentTypeNotFound⟩

/-- An operation whose request body declares `application/json` with the schema. -/
def jsonOp (name : String) (schema : Nat) : Operation Nat :=
  ⟨name, some ⟨some [("application/json", ⟨some schema⟩)]⟩⟩

/-- The pet store: `POST /pets` takes a JSON body with schema 7. -/
def petsItem : PathItem Nat :=
  ⟨none, none, some (jsonOp "createPet" 7), none, none, none, none, none⟩

/-- The pet store document. -/
def petstore : Document Nat := ⟨some ⟨[("/pets", petsItem)]⟩⟩

/-- A `POST` request with a content type and a body. -/
def post (url contentType : String) (body : Bytes) : Request :=
  ⟨"POST", url, [("Content-Type", contentType)], body⟩

end Demo

/-! ## Operation extraction as the specification words it -/

/-- The eight method slots of a path item, in the order GET, PUT, POST, DELETE,
OPTIONS, HEAD, PATCH, TRACE. -/
def methodSlots {P : Type} (pathItem : PathItem P) : List (Option (Operation P)) :=
  [pathItem.Get, pathItem.Put, pathItem.Post, pathItem.Delete, pathItem.Options,
    pathItem.Head, pathItem.Patch, pathItem.Trace]

/-- The operation has a request body whose content mapping has at least one
content-type entry. -/
def hasContentEntry {P : Type} (operation : Operation P) : Bool :=
  match operation.RequestBody with
  | some rb => !(mapRange rb.Content).isEmpty
  | none => false

/-- The operation has a request body whose content mapping is not nil; the
mapping may have no entry. -/
def hasContentMap {P : Type} (operation : Operation P) : Bool :=
  match operation.RequestBody with
  | some rb => rb.Content.isSome
  | none => false

/-- Operation extraction as section 4.2 of the specification words it: the defined
operations whose request body has at least one content-type entry, in slot order. -/
def specExtractOperations {P : Type} (pathItem : PathItem P) : List (Operation P) :=
  ((methodSlots pathItem).filterMap id).filter hasContentEntry

namespace Demo

/-- An operation whose request body declares no content type: the content map is
there, and empty. -/
def bareOp : Operation Nat := ⟨"ping", some ⟨some []⟩⟩

/-- A path item whose `GET` is `bareOp`. -/
def bareItem : PathItem Nat := ⟨some bareOp, none, none, none, none, none, none, none⟩

/-- Collaborators whose path resolution finds nothing and reports nothing. -/
def silentCollab : Collaborators Nat Nat Nat String :=
  ⟨fun _ _ => (none, none, ""), ExtractOperation, ExtractContentType, id, id, RenderInline,
    ConvertYAMLtoJSON, ValidateRequestSchema, RequestContentTypeNotFound⟩

/-- Collaborators whose engine reports every body invalid without a diagnostic. -/
def terseCollab : Collaborators Nat Nat Nat String :=
  ⟨FindPath, ExtractOperation, ExtractContentType, id, id, RenderInline, ConvertYAMLtoJSON,
    fun _ _ _ _ => (false, []), RequestContentTypeNotFound⟩

/-- A path item whose `POST` declares `application/xml` with schema 7. -/
def xmlItem : PathItem Nat :=
  ⟨none, none, some ⟨"pushFeed", some ⟨some [("application/xml", ⟨some 7⟩)]⟩⟩, none, none, none,
    none, none⟩

/-- A document with the one path `/feed`. -/
def xmlDoc : Document Nat := ⟨some ⟨[("/feed", xmlItem)]⟩⟩

/-- A document in which `POST /pets` and `PUT /animals` share schema 7. -/
def sharedDoc : Document Nat :=
  ⟨some ⟨[("/pets", petsItem),
    ("/animals", ⟨none, some (jsonOp "replaceAnimal" 7), none, none, none, none, none, none⟩)]⟩⟩

/-- A path item whose `POST` takes a JSON body with schema 13, which does not render. -/
def ordersItem : PathItem Nat :=
  ⟨none, none, some (jsonOp "createOrder" 13), none, none, none, none, none⟩

/-- A document with `/orders`, whose schema does not render. -/
def brokenDoc : Document Nat := ⟨some ⟨[("/orders", ordersItem)]⟩⟩

/-- The pet store validator with `/pets` pinned by `SetPathItem`. -/
def pinned : requestBodyValidator Nat Nat Nat String :=
  SetPathItem (NewRequestBodyValidator collab petstore) (some petsItem) "/pets"

end Demo

/-- The cache holds, under the fingerprint, the rendering of a schema that has this
fingerprint: schema handle, inline rendering, and its JSON conversion. -/
def holdsRendering {P Sch H E : Type} (c : Collaborators P Sch H E)
    (cache : H → Option (schemaCache Sch)) (h : H) : Prop :=
  ∃ e q, cache h = some e ∧ c.Hash q = h ∧ e.schema = c.Schema q ∧
    c.RenderInline (c.Schema q) = .ok e.renderedInline ∧
    c.ConvertYAMLtoJSON e.renderedInline = .ok e.renderedJSON

/-! ## Theorems -/

/-- One check of `extractOperations` appends the slot when it passes the filter. -/
theorem appendIfContent_eq {P : Type} (operations : List (Operation P))
    (op : Option (Operation P)) :
    appendIfContent operations op = operations ++ op.toList.filter hasContentMap := by
  cases op with
  | none => simp [appendIfContent]
  | some o =>
    cases hrb : o.RequestBody with
    | none => simp [appendIfContent, hasContentMap, hrb]
    | some rb =>
      cases hc : rb.Content with
      | none => simp [appendIfContent, hasContentMap, hrb, hc]
      | some m => simp [appendIfContent, hasContentMap, hrb, hc]

/-- Filtering the defined slots, one slot at a time. -/
theorem filter_slots_cons {P : Type} (f : Operation P → Bool) (op : Option (Operation P))
    (rest : List (Option (Operation P))) :
    ((op :: rest).filterMap id).filter f = op.toList.filter f ++ (rest.filterMap id).filter f := by
  cases op with
  | none => simp
  | some o => by_cases hf : f o = true <;> simp [List.filter_cons, hf]

/-- An extracted operation has a request body with a content map. -/
theorem hasContentMap_of_mem_extractOperations {P : Type} (pathItem : PathItem P)
    (operation : Operation P) (h : operation ∈ extractOperations pathItem) :
    hasContentMap operation = true := by
  simp only [extractOperations, appendIfContent_eq] at h
  simp only [List.nil_append, List.mem_append, List.mem_filter] at h
  tauto

/-- An operation with at least one content-type entry has a content map. -/
theorem hasContentMap_of_hasContentEntry {P : Type} (operation : Operation P)
    (h : hasContentEntry operation = true) : hasContentMap operation = true := by
  unfold hasContentEntry at h
  unfold hasContentMap
  cases hrb : operation.RequestBody with
  | none => simp [hrb] at h
  | some rb =>
    cases hc : rb.Content with
    | none => simp [hrb, hc, mapRange] at h
    | some m => simp [hc]

/-- The result of `extractOperations` is the filter of the defined slots. -/
theorem extractOperations_eq_filter {P : Type} (pathItem : PathItem P) :
    extractOperations pathItem = ((methodSlots pathItem).filterMap id).filter hasContentMap := by
  simp only [extractOperations, appendIfContent_eq, methodSlots, filter_slots_cons,
    List.nil_append, List.append_assoc, List.filterMap_nil, List.filter_nil, List.append_nil]

/-- C7, as stated, fails: a `GET` operation whose request body has a content map
with no entry is returned by `extractOperations`, where the specification returns
nothing. -/
theorem C7_counterexample_empty_content_returned :
    extractOperations Demo.bareItem = [Demo.bareOp] ∧
      contentOf Demo.bareOp = [] ∧
      specExtractOperations Demo.bareItem = [] := by
  decide

/-- C7 (amended): `extractOperations` returns exactly the defined operations whose
request body is present with a non-nil content map (which may be empty), one per
method slot, in the order GET, PUT, POST, DELETE, OPTIONS, HEAD, PATCH, TRACE;
so at most eight, and the operations the specification asks for are those of
the result that have at least one content-type entry. -/
theorem C7_extractOperations_filters_slots {P : Type} (pathItem : PathItem P) :
    extractOperations pathItem = ((methodSlots pathItem).filterMap id).filter hasContentMap ∧
      (extractOperations pathItem).length ≤ 8 ∧
      specExtractOperations pathItem = (extractOperations pathItem).filter hasContentEntry := by
  have heq := extractOperations_eq_filter pathItem
  refine ⟨heq, ?_, ?_⟩
  · rw [heq]
    calc (((methodSlots pathItem).filterMap id).filter hasContentMap).length
        ≤ ((methodSlots pathItem).filterMap id).length := List.length_filter_le _ _
      _ ≤ (methodSlots pathItem).length := List.length_filterMap_le _ _
      _ = 8 := rfl
  · rw [heq, specExtractOperations, List.filter_filter]
    apply List.filter_congr
    intro op _
    cases h : hasContentEntry op with
    | false => simp
    | true => simp [hasContentMap_of_hasContentEntry op h]

/-- C5: when the path resolves, the content-type header is not empty, and the
request body of the operation has no entry for the media type of the header,
`ValidateRequestBody` returns invalid with exactly the one
`RequestContentTypeNotFound` error of that operation and request, and the engine
is not called. -/
theorem C5_content_type_not_found {P Sch H E : Type} (c : Collaborators P Sch H E)
    (v : requestBodyValidator P Sch H E) (request : Request) (pathItem : PathItem P)
    (pathValue : String) (operation : Operation P) (rb : RequestBody P)
    (hpath : c.FindPath request v.document = (some pathItem, none, pathValue))
    (hheader : request.HeaderGet ContentTypeHeader ≠ "")
    (hop : c.ExtractOperation request pathItem = some operation)
    (hrb : operation.RequestBody = some rb)
    (hmiss : mapGet rb.Content
      (c.ExtractContentType (request.HeaderGet ContentTypeHeader)).1 = none) :
    ValidateRequestBody c v request =
        ⟨.returned false (some [c.RequestContentTypeNotFound operation request]), 1, []⟩ ∧
      (ValidateRequestBody c v request).engineCalls = [] := by
  have h : ValidateRequestBody c v request =
      ⟨.returned false (some [c.RequestContentTypeNotFound operation request]), 1, []⟩ := by
    unfold ValidateRequestBody
    rw [hpath]
    simp [hheader, hop, hrb, hmiss, finish]
  exact ⟨h, by rw [h]⟩

/-- C5 at the pet store: `application/xml` against an operation that declares only
`application/json`. -/
theorem C5_content_type_not_found_witness :
    ValidateRequestBody Demo.collab (NewRequestBodyValidator Demo.collab Demo.petstore)
        (Demo.post "/pets" "application/xml" [1]) =
        ⟨.returned false (some ["content type not found: createPet application/xml"]), 1, []⟩ ∧
      (ValidateRequestBody Demo.collab (NewRequestBodyValidator Demo.collab Demo.petstore)
        (Demo.post "/pets" "application/xml" [1])).engineCalls = [] :=
  C5_content_type_not_found Demo.collab (NewRequestBodyValidator Demo.collab Demo.petstore)
    (Demo.post "/pets" "application/xml" [1]) Demo.petsItem "/pets" (Demo.jsonOp "createPet" 7)
    ⟨some [("application/json", ⟨some 7⟩)]⟩ (by decide) (by decide) (by decide) (by decide)
    (by decide)

/-- The closing lines of `ValidateRequestBody` return, valid exactly when nothing
was collected, and pass the recorded engine calls through. -/
theorem finish_returns {Sch E : Type} (validationErrors : List E)
    (calls : List (Request × Option Sch × Bytes × Bytes)) :
    ∃ valid errs, (finish validationErrors calls).outcome = .returned valid errs ∧
      (valid = true ↔ sliceLen errs = 0) ∧ (valid = true ↔ validationErrors = []) ∧
      (finish validationErrors calls).engineCalls = calls := by
  unfold finish
  cases validationErrors with
  | nil => exact ⟨true, none, by simp [sliceLen]⟩
  | cons e es => exact ⟨false, some (e :: es), by simp [sliceLen]⟩

/-- C6, as stated, fails: when path resolution yields no path item and no errors
the result is invalid with no errors, and when the engine reports a body invalid
without a diagnostic the result is valid. -/
theorem C6_counterexample_invalid_without_errors :
    (ValidateRequestBody Demo.silentCollab
        (NewRequestBodyValidator Demo.silentCollab Demo.petstore)
        (Demo.post "/pets" "application/json" [1])).outcome = .returned false none ∧
      sliceLen (none : Option (List String)) = 0 ∧
      (ValidateRequestBody Demo.terseCollab
        (NewRequestBodyValidator Demo.terseCollab Demo.petstore)
        (Demo.post "/pets" "application/json" [1])) =
        ⟨.returned true none, 1, [(Demo.post "/pets" "application/json" [1], some 7, [7], [0, 7])]⟩ ∧
      Demo.terseCollab.ValidateRequestSchema (Demo.post "/pets" "application/json" [1])
        (some 7) [7] [0, 7] = (false, []) := by
  decide

/-- C6 (amended): when path resolution reports at least one error whenever it yields
no path item or a non-nil error slice, and an operation is selected whenever one
is dereferenced, `ValidateRequestBody` returns, its boolean is true exactly when
the returned error sequence is empty, and it is not valid when a consulted engine
reported the body invalid with at least one error. -/
theorem C6_valid_iff_no_errors {P Sch H E : Type} (c : Collaborators P Sch H E)
    (v : requestBodyValidator P Sch H E) (request : Request)
    (hres : (c.FindPath request v.document).1 = none ∨
        (c.FindPath request v.document).2.1 ≠ none →
      0 < sliceLen (c.FindPath request v.document).2.1)
    (hop : ∀ pathItem, (c.FindPath request v.document).1 = some pathItem →
      request.HeaderGet ContentTypeHeader ≠ "" →
      c.ExtractOperation request pathItem ≠ none) :
    ∃ valid errs, (ValidateRequestBody c v request).outcome = .returned valid errs ∧
      (valid = true ↔ sliceLen errs = 0) ∧
      ∀ call ∈ (ValidateRequestBody c v request).engineCalls,
        (c.ValidateRequestSchema call.1 call.2.1 call.2.2.1 call.2.2.2).1 = false →
        (c.ValidateRequestSchema call.1 call.2.1 call.2.2.1 call.2.2.2).2 ≠ [] →
        valid = false := by
  unfold ValidateRequestBody
  rcases hfp : c.FindPath request v.document with ⟨pi, errs, pv⟩
  rw [hfp] at hres hop
  cases pi with
  | none =>
    refine ⟨false, errs, rfl, ?_, by simp⟩
    have := hres (Or.inl rfl)
    simp at this ⊢
    omega
  | some pathItem =>
    cases errs with
    | some es =>
      refine ⟨false, some es, rfl, ?_, by simp⟩
      have := hres (Or.inr (by simp))
      simp at this ⊢
      omega
    | none =>
      have quiet : ∀ l : List E, ∃ valid errs,
          (finish l ([] : List (Request × Option Sch × Bytes × Bytes))).outcome
            = .returned valid errs ∧ (valid = true ↔ sliceLen errs = 0) ∧
          ∀ call ∈ (finish l ([] : List (Request × Option Sch × Bytes × Bytes))).engineCalls,
            (c.ValidateRequestSchema call.1 call.2.1 call.2.2.1 call.2.2.2).1 = false →
            (c.ValidateRequestSchema call.1 call.2.1 call.2.2.1 call.2.2.2).2 ≠ [] →
            valid = false := by
        intro l
        obtain ⟨valid, es, h1, h2, _, h4⟩ :=
          finish_returns l ([] : List (Request × Option Sch × Bytes × Bytes))
        exact ⟨valid, es, h1, h2, by rw [h4]; simp⟩
      simp only []
      by_cases hh : request.HeaderGet ContentTypeHeader = ""
      · simp only [hh, ne_eq, not_true_eq_false, if_false]
        exact quiet []
      · have hop2 := hop pathItem rfl hh
        simp only [ne_eq, hh, not_false_eq_true, if_true]
        cases hopv : c.ExtractOperation request pathItem with
        | none => exact absurd hopv hop2
        | some operation =>
          simp only []
          split
          · split
            · split
              · split
                · rename_i p _
                  obtain ⟨valid, es, h1, h2, h3, h4⟩ := finish_returns
                    (if (!(c.ValidateRequestSchema request
                        (cacheRead v.schemaCache (c.Hash p)).1
                        (cacheRead v.schemaCache (c.Hash p)).2.1
                        (cacheRead v.schemaCache (c.Hash p)).2.2).1) = true
                      then (c.ValidateRequestSchema request
                        (cacheRead v.schemaCache (c.Hash p)).1
                        (cacheRead v.schemaCache (c.Hash p)).2.1
                        (cacheRead v.schemaCache (c.Hash p)).2.2).2 else [])
                    [(request, (cacheRead v.schemaCache (c.Hash p)).1,
                        (cacheRead v.schemaCache (c.Hash p)).2.1,
                        (cacheRead v.schemaCache (c.Hash p)).2.2)]
                  refine ⟨valid, es, h1, h2, ?_⟩
                  rw [h4]
                  intro call hcall hfalse hne
                  simp only [List.mem_singleton] at hcall
                  subst hcall
                  simp only at hfalse hne
                  cases hv : valid with
                  | false => rfl
                  | true =>
                    have := h3.mp hv
                    simp [hfalse] at this
                    exact absurd this hne
                · exact quiet []
              · exact quiet []
            · exact quiet _
          · exact quiet []

/-- C6 (amended) at the pet store, for an empty body against schema 7. -/
theorem C6_valid_iff_no_errors_witness :
    ∃ valid errs,
      (ValidateRequestBody Demo.collab (NewRequestBodyValidator Demo.collab Demo.petstore)
        (Demo.post "/pets" "application/json" [])).outcome = .returned valid errs ∧
      (valid = true ↔ sliceLen errs = 0) ∧
      ∀ call ∈ (ValidateRequestBody Demo.collab
          (NewRequestBodyValidator Demo.collab Demo.petstore)
          (Demo.post "/pets" "application/json" [])).engineCalls,
        (Demo.collab.ValidateRequestSchema call.1 call.2.1 call.2.2.1 call.2.2.2).1 = false →
        (Demo.collab.ValidateRequestSchema call.1 call.2.1 call.2.2.1 call.2.2.2).2 ≠ [] →
        valid = false :=
  C6_valid_iff_no_errors Demo.collab (NewRequestBodyValidator Demo.collab Demo.petstore)
    (Demo.post "/pets" "application/json" []) (by decide)
    (by
      intro pathItem h _
      have hfound : (Demo.collab.FindPath (Demo.post "/pets" "application/json" [])
          (NewRequestBodyValidator Demo.collab Demo.petstore).document).1
          = some Demo.petsItem := by decide
      rw [hfound] at h
      cases h
      decide)

/-- C9, as stated, fails: the header `application/xml; boundary=json` selects the
entry `application/xml`, which does not contain `json`, and the engine is
consulted all the same; with `charset=utf-8` instead it is not. -/
theorem C9_counterexample_parameter_triggers_engine :
    (Demo.ExtractContentType "application/xml; boundary=json").1 = "application/xml" ∧
      strings.Contains (strings.ToLower "application/xml") JSONType = false ∧
      (ValidateRequestBody Demo.collab (NewRequestBodyValidator Demo.collab Demo.xmlDoc)
        (Demo.post "/feed" "application/xml; boundary=json" [1])).engineCalls =
        [(Demo.post "/feed" "application/xml; boundary=json" [1], some 7, [7], [0, 7])] ∧
      (ValidateRequestBody Demo.collab (NewRequestBodyValidator Demo.collab Demo.xmlDoc)
        (Demo.post "/feed" "application/xml; charset=utf-8" [1])).engineCalls = [] := by
  decide

/-- C9 (amended): when the path resolves and the media type of the header selects an
entry that declares a schema, the engine is consulted if and only if the whole
header value, parameters included, contains `json` case-insensitively; it is
then called once, with what the cache read gives for the fingerprint. -/
theorem C9_engine_iff_header_has_json {P Sch H E : Type} (c : Collaborators P Sch H E)
    (v : requestBodyValidator P Sch H E) (request : Request) (pathItem : PathItem P)
    (pathValue : String) (operation : Operation P) (rb : RequestBody P)
    (mediaType : MediaType P) (p : P)
    (hpath : c.FindPath request v.document = (some pathItem, none, pathValue))
    (hop : c.ExtractOperation request pathItem = some operation)
    (hrb : operation.RequestBody = some rb)
    (hentry : mapGet rb.Content
      (c.ExtractContentType (request.HeaderGet ContentTypeHeader)).1 = some mediaType)
    (hschema : mediaType.Schema = some p) :
    ((ValidateRequestBody c v request).engineCalls ≠ [] ↔
        strings.Contains (strings.ToLower (request.HeaderGet ContentTypeHeader)) JSONType
          = true) ∧
      (ValidateRequestBody c v request).engineCalls =
        if strings.Contains (strings.ToLower (request.HeaderGet ContentTypeHeader)) JSONType
        then [(request, cacheRead v.schemaCache (c.Hash p))] else [] := by
  have hcalls : (ValidateRequestBody c v request).engineCalls =
      if strings.Contains (strings.ToLower (request.HeaderGet ContentTypeHeader)) JSONType
      then [(request, cacheRead v.schemaCache (c.Hash p))] else [] := by
    unfold ValidateRequestBody
    rw [hpath]
    by_cases hh : request.HeaderGet ContentTypeHeader = ""
    · have hno : strings.Contains (strings.ToLower "") JSONType = false := by decide
      simp [hh, hno, finish]
    · by_cases hj : strings.Contains (strings.ToLower (request.HeaderGet ContentTypeHeader))
          JSONType = true
      · simp only [ne_eq, hh, not_false_eq_true, if_true, hop, hrb, hentry, hj, hschema]
        obtain ⟨_, _, _, _, _, h4⟩ := finish_returns
          (if (!(c.ValidateRequestSchema request
              (cacheRead v.schemaCache (c.Hash p)).1
              (cacheRead v.schemaCache (c.Hash p)).2.1
              (cacheRead v.schemaCache (c.Hash p)).2.2).1) = true
            then (c.ValidateRequestSchema request
              (cacheRead v.schemaCache (c.Hash p)).1
              (cacheRead v.schemaCache (c.Hash p)).2.1
              (cacheRead v.schemaCache (c.Hash p)).2.2).2 else [])
          [(request, (cacheRead v.schemaCache (c.Hash p)).1,
              (cacheRead v.schemaCache (c.Hash p)).2.1,
              (cacheRead v.schemaCache (c.Hash p)).2.2)]
        exact h4
      · simp [hh, hop, hrb, hentry, hj, finish]
  refine ⟨?_, hcalls⟩
  rw [hcalls]
  by_cases hj : strings.Contains (strings.ToLower (request.HeaderGet ContentTypeHeader))
      JSONType = true <;> simp [hj]

/-- C9 (amended) at the document with `/feed`, header `application/xml; boundary=json`. -/
theorem C9_engine_iff_header_has_json_witness :
    ((ValidateRequestBody Demo.collab (NewRequestBodyValidator Demo.collab Demo.xmlDoc)
        (Demo.post "/feed" "application/xml; boundary=json" [1])).engineCalls ≠ [] ↔
        strings.Contains (strings.ToLower ((Demo.post "/feed" "application/xml; boundary=json"
          [1]).HeaderGet ContentTypeHeader)) JSONType = true) ∧
      (ValidateRequestBody Demo.collab (NewRequestBodyValidator Demo.collab Demo.xmlDoc)
        (Demo.post "/feed" "application/xml; boundary=json" [1])).engineCalls =
        if strings.Contains (strings.ToLower ((Demo.post "/feed"
          "application/xml; boundary=json" [1]).HeaderGet ContentTypeHeader)) JSONType
        then [(Demo.post "/feed" "application/xml; boundary=json" [1],
          cacheRead (NewRequestBodyValidator Demo.collab Demo.xmlDoc).schemaCache
            (Demo.collab.Hash 7))] else [] :=
  C9_engine_iff_header_has_json Demo.collab (NewRequestBodyValidator Demo.collab Demo.xmlDoc)
    (Demo.post "/feed" "application/xml; boundary=json" [1]) Demo.xmlItem "/feed"
    ⟨"pushFeed", some ⟨some [("application/xml", ⟨some 7⟩)]⟩⟩
    ⟨some [("application/xml", ⟨some 7⟩)]⟩ ⟨some 7⟩ 7
    (by decide) (by decide) (by decide) (by decide) (by decide)

/-- Writing an entry keeps what the cache holds under every fingerprint, when the
written entry is itself the rendering of a schema with its key. -/
theorem holdsRendering_insert {P Sch H E : Type} [DecidableEq H] (c : Collaborators P Sch H E)
    (cache : H → Option (schemaCache Sch)) (p : P) (ri rj : Bytes)
    (hri : c.RenderInline (c.Schema p) = .ok ri) (hrj : c.ConvertYAMLtoJSON ri = .ok rj) (h : H)
    (hold : holdsRendering c cache h ∨ h = c.Hash p) :
    holdsRendering c (cacheInsert cache (c.Hash p) ⟨c.Schema p, ri, rj⟩) h := by
  by_cases hk : h = c.Hash p
  · exact ⟨⟨c.Schema p, ri, rj⟩, p, by simp [cacheInsert, hk], hk.symm, rfl, hri, hrj⟩
  · rcases hold with ⟨e, q, h1, h2, h3, h4, h5⟩ | hk2
    · exact ⟨e, q, by simp [cacheInsert, hk, h1], h2, h3, h4, h5⟩
    · exact absurd hk2 hk

/-- The inner loop keeps every rendering the cache holds and, when it ends without
an error, the cache holds a rendering for every schema of the content map. -/
theorem cacheContent_holds {P Sch H E : Type} [DecidableEq H] (c : Collaborators P Sch H E)
    (content : List (String × MediaType P)) :
    ∀ st : BuildState Sch H,
      (∀ h, holdsRendering c st.cache h →
        holdsRendering c (cacheContent c content st).1.cache h) ∧
      ((cacheContent c content st).2 = none →
        ∀ entry ∈ content, ∀ p, entry.2.Schema = some p →
          holdsRendering c (cacheContent c content st).1.cache (c.Hash p)) := by
  induction content with
  | nil => intro st; simp [cacheContent]
  | cons entry rest ih =>
    intro st
    obtain ⟨ct, body⟩ := entry
    cases hs : body.Schema with
    | none =>
      simp only [cacheContent, hs]
      refine ⟨(ih st).1, ?_⟩
      intro hnone e he p hp
      rcases List.mem_cons.mp he with rfl | he
      · simp [hs] at hp
      · exact (ih st).2 hnone e he p hp
    | some p0 =>
      cases hri : c.RenderInline (c.Schema p0) with
      | error err => simp [cacheContent, hs, hri]
      | ok ri =>
        cases hrj : c.ConvertYAMLtoJSON ri with
        | error err => simp [cacheContent, hs, hri, hrj]
        | ok rj =>
          simp only [cacheContent, hs, hri, hrj]
          have step := ih ⟨cacheInsert st.cache (c.Hash p0) ⟨c.Schema p0, ri, rj⟩,
            st.renderCalls ++ [c.Hash p0], st.convertCalls ++ [c.Hash p0]⟩
          refine ⟨?_, ?_⟩
          · intro h hh
            exact step.1 h (holdsRendering_insert c st.cache p0 ri rj hri hrj h (Or.inl hh))
          · intro hnone e he p hp
            rcases List.mem_cons.mp he with rfl | he
            · simp only [hs, Option.some.injEq] at hp
              subst hp
              exact step.1 _ (holdsRendering_insert c st.cache p0 ri rj hri hrj _ (Or.inr rfl))
            · exact step.2 hnone e he p hp

/-- The middle loop keeps every rendering the cache holds and, when it ends without
an error, the cache holds a rendering for every schema of every operation. -/
theorem cacheOperations_holds {P Sch H E : Type} [DecidableEq H] (c : Collaborators P Sch H E)
    (operations : List (Operation P)) :
    ∀ st : BuildState Sch H,
      (∀ h, holdsRendering c st.cache h →
        holdsRendering c (cacheOperations c operations st).1.cache h) ∧
      ((cacheOperations c operations st).2 = none →
        ∀ operation ∈ operations, ∀ entry ∈ contentOf operation, ∀ p,
          entry.2.Schema = some p →
          holdsRendering c (cacheOperations c operations st).1.cache (c.Hash p)) := by
  induction operations with
  | nil => intro st; simp [cacheOperations]
  | cons operation rest ih =>
    intro st
    have inner := cacheContent_holds c (contentOf operation) st
    rcases hrun : cacheContent c (contentOf operation) st with ⟨st1, err⟩
    rw [hrun] at inner
    cases err with
    | some e =>
      simp only [cacheOperations, hrun]
      exact ⟨inner.1, by simp⟩
    | none =>
      simp only [cacheOperations, hrun]
      have step := ih st1
      refine ⟨fun h hh => step.1 h (inner.1 h hh), ?_⟩
      intro hnone op hop entry hentry p hp
      rcases List.mem_cons.mp hop with rfl | hop
      · exact step.1 _ (inner.2 rfl entry hentry p hp)
      · exact step.2 hnone op hop entry hentry p hp

/-- The outer loop keeps every rendering the cache holds and, when it ends without
an error, the cache holds a rendering for every schema of every extracted
operation of every path item. -/
theorem cachePathItems_holds {P Sch H E : Type} [DecidableEq H] (c : Collaborators P Sch H E)
    (items : List (String × PathItem P)) :
    ∀ st : BuildState Sch H,
      (∀ h, holdsRendering c st.cache h →
        holdsRendering c (cachePathItems c items st).1.cache h) ∧
      ((cachePathItems c items st).2 = none →
        ∀ item ∈ items, ∀ operation ∈ extractOperations item.2,
          ∀ entry ∈ contentOf operation, ∀ p, entry.2.Schema = some p →
          holdsRendering c (cachePathItems c items st).1.cache (c.Hash p)) := by
  induction items with
  | nil => intro st; simp [cachePathItems]
  | cons item rest ih =>
    intro st
    obtain ⟨key, pathItem⟩ := item
    have inner := cacheOperations_holds c (extractOperations pathItem) st
    rcases hrun : cacheOperations c (extractOperations pathItem) st with ⟨st1, err⟩
    rw [hrun] at inner
    cases err with
    | some e =>
      simp only [cachePathItems, hrun]
      exact ⟨inner.1, by simp⟩
    | none =>
      simp only [cachePathItems, hrun]
      have step := ih st1
      refine ⟨fun h hh => step.1 h (inner.1 h hh), ?_⟩
      intro hnone it hit op hop entry hentry p hp
      rcases List.mem_cons.mp hit with rfl | hit
      · exact step.1 _ (inner.2 rfl op hop entry hentry p hp)
      · exact step.2 hnone it hit op hop entry hentry p hp

/-- A defined operation whose request body has a content-type entry is extracted. -/
theorem mem_extractOperations_of_entry {P : Type} (pathItem : PathItem P)
    (operation : Operation P) (hslot : some operation ∈ methodSlots pathItem)
    (rb : RequestBody P) (hrb : operation.RequestBody = some rb)
    (entry : String × MediaType P) (hentry : entry ∈ mapRange rb.Content) :
    operation ∈ extractOperations pathItem := by
  rw [extractOperations_eq_filter, List.mem_filter, List.mem_filterMap]
  refine ⟨⟨some operation, hslot, rfl⟩, ?_⟩
  unfold hasContentMap
  rw [hrb]
  cases hc : rb.Content with
  | none => simp [hc, mapRange] at hentry
  | some m => simp [hc]

/-- C4: when `buildCache` returns no error, for every path item of the document,
every method whose operation is defined, and every content type of its request
body whose entry declares a schema, the cache has an entry under the fingerprint
of that schema, the entry holds the schema handle, inline rendering and JSON
conversion of a schema with that fingerprint, and the cache read of
`ValidateRequestBody` for that fingerprint hits it. -/
theorem C4_cache_completeness {P Sch H E : Type} [DecidableEq H] (c : Collaborators P Sch H E)
    (v : requestBodyValidator P Sch H E) (hbuild : (buildCache c v).2 = none)
    (paths : Paths P) (hpaths : v.document.Paths = some paths)
    (key : String) (pathItem : PathItem P) (hitem : (key, pathItem) ∈ paths.PathItems)
    (operation : Operation P) (hslot : some operation ∈ methodSlots pathItem)
    (rb : RequestBody P) (hrb : operation.RequestBody = some rb)
    (ct : String) (mediaType : MediaType P) (hentry : (ct, mediaType) ∈ mapRange rb.Content)
    (p : P) (hschema : mediaType.Schema = some p) :
    ∃ e, (buildCache c v).1.schemaCache (c.Hash p) = some e ∧
      (∃ q, c.Hash q = c.Hash p ∧ e.schema = c.Schema q ∧
        c.RenderInline (c.Schema q) = .ok e.renderedInline ∧
        c.ConvertYAMLtoJSON e.renderedInline = .ok e.renderedJSON) ∧
      cacheRead (buildCache c v).1.schemaCache (c.Hash p) =
        (some e.schema, e.renderedInline, e.renderedJSON) := by
  have hmem := mem_extractOperations_of_entry pathItem operation hslot rb hrb (ct, mediaType)
    hentry
  have hcontent : (ct, mediaType) ∈ contentOf operation := by
    unfold contentOf
    rw [hrb]
    exact hentry
  have loops := cachePathItems_holds c paths.PathItems ⟨v.schemaCache, [], []⟩
  have hrun : buildCacheRun c v = cachePathItems c paths.PathItems ⟨v.schemaCache, [], []⟩ := by
    unfold buildCacheRun
    rw [hpaths]
  have herr : (cachePathItems c paths.PathItems ⟨v.schemaCache, [], []⟩).2 = none := by
    rw [← hrun]
    exact hbuild
  obtain ⟨e, q, h1, h2, h3, h4, h5⟩ :=
    loops.2 herr (key, pathItem) hitem operation hmem (ct, mediaType) hcontent p hschema
  have hcache : (buildCache c v).1.schemaCache (c.Hash p) = some e := by
    show (buildCacheRun c v).1.cache (c.Hash p) = some e
    rw [hrun]
    exact h1
  exact ⟨e, hcache, ⟨q, h2, h3, h4, h5⟩, by unfold cacheRead; rw [hcache]⟩

/-- C4 at the pet store: `POST /pets` with `application/json` and schema 7. -/
theorem C4_cache_completeness_witness :
    ∃ e, (buildCache Demo.collab
        (⟨Demo.petstore, none, "", none, fun _ => none⟩ :
          requestBodyValidator Nat Nat Nat String)).1.schemaCache (Demo.collab.Hash 7) = some e ∧
      (∃ q, Demo.collab.Hash q = Demo.collab.Hash 7 ∧ e.schema = Demo.collab.Schema q ∧
        Demo.collab.RenderInline (Demo.collab.Schema q) = .ok e.renderedInline ∧
        Demo.collab.ConvertYAMLtoJSON e.renderedInline = .ok e.renderedJSON) ∧
      cacheRead (buildCache Demo.collab
        (⟨Demo.petstore, none, "", none, fun _ => none⟩ :
          requestBodyValidator Nat Nat Nat String)).1.schemaCache (Demo.collab.Hash 7) =
        (some e.schema, e.renderedInline, e.renderedJSON) :=
  C4_cache_completeness Demo.collab ⟨Demo.petstore, none, "", none, fun _ => none⟩
    (by decide) ⟨[("/pets", Demo.petsItem)]⟩ rfl "/pets" Demo.petsItem (by decide)
    (Demo.jsonOp "createPet" 7) (by decide) ⟨some [("application/json", ⟨some 7⟩)]⟩ rfl
    "application/json" ⟨some 7⟩ (by decide) 7 rfl

/-- The pin set by `SetPathItem` is not read by `ValidateRequestBody`. -/
theorem ValidateRequestBody_SetPathItem {P Sch H E : Type} (c : Collaborators P Sch H E)
    (v : requestBodyValidator P Sch H E) (path : Option (PathItem P)) (pathValue : String)
    (request : Request) :
    ValidateRequestBody c (SetPathItem v path pathValue) request
      = ValidateRequestBody c v request := rfl

/-- C1, at the failing input: the schema of `POST /orders` does not render, so the
validator is returned with no entry for its fingerprint; validating a JSON request
for that operation calls the engine with a nil schema and empty renderings and
returns valid with no error. -/
theorem C1_cache_miss_reaches_engine_with_nil_schema :
    (NewRequestBodyValidator Demo.collab Demo.brokenDoc).schemaCache (Demo.collab.Hash 13)
        = none ∧
      ValidateRequestBody Demo.collab (NewRequestBodyValidator Demo.collab Demo.brokenDoc)
        (Demo.post "/orders" "application/json" []) =
        ⟨.returned true none, 1, [(Demo.post "/orders" "application/json" [], none, [], [])]⟩ := by
  decide

/-- C2, at the failing input: with `/pets` pinned, two requests that differ only in
their URL get different results, and path resolution is consulted for each. -/
theorem C2_pin_ignored_result_depends_on_url :
    Demo.pinned.pathItem = some Demo.petsItem ∧ Demo.pinned.pathValue = "/pets" ∧
      ValidateRequestBody Demo.collab Demo.pinned (Demo.post "/pets" "application/json" [1]) =
        ⟨.returned true none, 1,
          [(Demo.post "/pets" "application/json" [1], some 7, [7], [0, 7])]⟩ ∧
      ValidateRequestBody Demo.collab Demo.pinned
        (Demo.post "/elsewhere" "application/json" [1]) =
        ⟨.returned false (some ["Path not found"]), 1, []⟩ := by
  decide

/-- C3, at the failing input: `buildCache` returns the render error, and
`NewRequestBodyValidator` returns a validator for the document all the same, with
nothing cached for the schema. -/
theorem C3_build_error_discarded :
    (buildCache Demo.collab
        (⟨Demo.brokenDoc, none, "", none, fun _ => none⟩ :
          requestBodyValidator Nat Nat Nat String)).2 =
        some "failed to render inline schema: unresolvable reference" ∧
      (NewRequestBodyValidator Demo.collab Demo.brokenDoc).document = Demo.brokenDoc ∧
      (NewRequestBodyValidator Demo.collab Demo.brokenDoc).schemaCache 13 = none := by
  decide

/-- C8, at the failing input: two operations share schema 7; `buildCache` succeeds
and invokes the renderer and the converter twice for that fingerprint. -/
theorem C8_shared_schema_rendered_twice :
    (buildCacheRun Demo.collab
        (⟨Demo.sharedDoc, none, "", none, fun _ => none⟩ :
          requestBodyValidator Nat Nat Nat String)).2 = none ∧
      (buildCacheRun Demo.collab
        (⟨Demo.sharedDoc, none, "", none, fun _ => none⟩ :
          requestBodyValidator Nat Nat Nat String)).1.renderCalls = [7, 7] ∧
      (buildCacheRun Demo.collab
        (⟨Demo.sharedDoc, none, "", none, fun _ => none⟩ :
          requestBodyValidator Nat Nat Nat String)).1.convertCalls = [7, 7] := by
  decide

end Requests
